import Mathlib

/-!
Shallow embedding of the Simako Node.js backend (`src/nodejs/server.js`):
an Express + Mongoose CRUD service over two MongoDB collections,
`messages` and `sim_cards`.  Points in time (JS `Date`) are modelled as
naturals, MongoDB ObjectIds as naturals (a route-parameter string is cast
to an ObjectId by `parseObjectId`, mirroring Mongoose's cast of a 24-digit
hex string; a non-castable string makes the driver throw, which the
handler's catch turns into a 500), and the open-ended `metadata` map
(Schema.Types.Mixed) as a key/value list of strings.  JSON request bodies
are modelled as records of optional fields plus the list of keys present
in the body that the Joi schema does not declare (Joi's default
`allowUnknown: false` rejects those).  The store is modelled as in-memory
lists together with the id counter and the wall clock.
-/

namespace Simako

/-- Model of `mongoose.Schema.Types.Mixed` metadata: a key/value map. -/
abbrev Metadata := List (String × String)

/-- A document of the `messages` collection (`messageSchema`). -/
structure Message where
  id : Nat
  sim_id : String
  type : String
  «from» : String
  «to» : Option String
  message : String
  timestamp : Nat
  processed : Bool
  processed_at : Option Nat
  metadata : Metadata
  created_at : Nat
deriving Repr, DecidableEq

/-- A document of the `sim_cards` collection (`simCardSchema`).  The
store-generated `_id` is not modelled: no endpoint reads it. -/
structure SimCard where
  sim_id : String
  phone_number : String
  carrier : Option String
  is_active : Bool
  created_at : Nat
  last_seen : Nat
deriving Repr, DecidableEq

/-- Server state: the two collections, the id counter for `messages`,
the wall clock, and the MongoDB connection flag
(`mongoose.connection.readyState === 1`). -/
structure St where
  now : Nat
  messages : List Message
  nextId : Nat
  simCards : List SimCard
  connected : Bool
deriving Repr, DecidableEq

/-- A `POST /api/messages` JSON body, seen through `messageValidation`'s
schema: the declared fields (absent = `none`) plus the keys of any
undeclared fields present in the body. -/
structure MsgPayload where
  sim_id : Option String := none
  type : Option String := none
  «from» : Option String := none
  «to» : Option String := none
  message : Option String := none
  timestamp : Option Nat := none
  metadata : Option Metadata := none
  extra : List String := []
deriving Repr, DecidableEq

/-- The value returned by a successful `messageValidation.validate`. -/
structure MsgValue where
  sim_id : String
  type : String
  «from» : String
  «to» : Option String
  message : String
  timestamp : Option Nat
  metadata : Option Metadata
deriving Repr, DecidableEq

/-- `messageValidation` (Joi): `sim_id`, `type` ∈ enum, `from`, `message`
required; `to`, `timestamp`, `metadata` optional; every `Joi.string()`
rejects the empty string (Joi default) and unknown keys are rejected
(Joi default).  Returns the first error, as `abortEarly` does. -/
def messageValidation (p : MsgPayload) : Except String MsgValue :=
  match p.sim_id with
  | none => .error "\"sim_id\" is required"
  | some simId =>
    if simId = "" then .error "\"sim_id\" is not allowed to be empty" else
    match p.type with
    | none => .error "\"type\" is required"
    | some ty =>
      if ty = "" then .error "\"type\" is not allowed to be empty" else
      if ty = "sms" || ty = "call" then
        match p.«from» with
        | none => .error "\"from\" is required"
        | some fr =>
          if fr = "" then .error "\"from\" is not allowed to be empty" else
          if p.«to» = some "" then .error "\"to\" is not allowed to be empty" else
          match p.message with
          | none => .error "\"message\" is required"
          | some msg =>
            if msg = "" then .error "\"message\" is not allowed to be empty" else
            match p.extra with
            | [] => .ok { sim_id := simId, type := ty, «from» := fr, «to» := p.«to»,
                          message := msg, timestamp := p.timestamp, metadata := p.metadata }
            | k :: _ => .error ("\"" ++ k ++ "\" is not allowed")
      else .error "\"type\" must be one of [sms, call]"

/-- Result of `POST /api/messages`. -/
inductive PostMsgResult where
  | badRequest (error : String)
  | created (message_id : Nat) (received : Message)
deriving Repr, DecidableEq

/-- HTTP status code of a `POST /api/messages` response. -/
def PostMsgResult.statusCode : PostMsgResult → Nat
  | .badRequest _ => 400
  | .created _ _ => 201

/-- The document built by `new Message({...value, timestamp: value.timestamp || new Date()})`
with the schema defaults (`processed: false`, `metadata: \x7b\x7d`,
`created_at: Date.now`) and the store-generated id. -/
def mkMessage (v : MsgValue) (s : St) : Message :=
  { id := s.nextId
    sim_id := v.sim_id
    type := v.type
    «from» := v.«from»
    «to» := v.«to»
    message := v.message
    timestamp := v.timestamp.getD s.now
    processed := false
    processed_at := none
    metadata := v.metadata.getD []
    created_at := s.now }

/-- Handler of `POST /api/messages`: validate, then save and answer 201
with `message_id` and the stored record, or answer 400 with the
validation error and write nothing. -/
def postMessages (p : MsgPayload) (s : St) : PostMsgResult × St :=
  match messageValidation p with
  | .error e => (.badRequest e, s)
  | .ok v =>
    (.created (mkMessage v s).id (mkMessage v s),
     { s with messages := s.messages ++ [mkMessage v s], nextId := s.nextId + 1 })

/-- Query string of `GET /api/messages` (absent parameter = `none`;
`limit` and `skip` after `parseInt` with their defaults). -/
structure MsgQuery where
  sim_id : Option String := none
  type : Option String := none
  limit : Nat := 100
  skip : Nat := 0
deriving Repr, DecidableEq

/-- The Mongo filter built by the handler: `if (sim_id) query.sim_id = sim_id`
and likewise for `type` (a JS falsy value — absent or the empty string —
adds no condition), conditions conjoined. -/
def msgMatches (q : MsgQuery) (m : Message) : Bool :=
  (match q.sim_id with
   | none => true
   | some v => if v = "" then true else m.sim_id = v) &&
  (match q.type with
   | none => true
   | some v => if v = "" then true else m.type = v)

/-- The sort order `.sort(\x7btimestamp: -1\x7d)`: timestamp descending. -/
def tsDesc (a b : Message) : Prop := b.timestamp ≤ a.timestamp

instance : DecidableRel tsDesc := fun a b => Nat.decLe b.timestamp a.timestamp

instance : IsTotal Message tsDesc := ⟨fun a b => le_total b.timestamp a.timestamp⟩

instance : IsTrans Message tsDesc := ⟨fun _ _ _ h1 h2 => le_trans h2 h1⟩

/-- Body of a `GET /api/messages` 200 response. -/
structure GetMsgsResult where
  messages : List Message
  count : Nat
  total : Nat
deriving Repr, DecidableEq

/-- Handler of `GET /api/messages`: filter, sort by timestamp descending,
skip, limit; `total` counts matches ignoring pagination, `count` is the
page length.  MongoDB treats `.limit(0)` as no limit, so a zero limit
returns everything after the skip.  Read-only. -/
def getMessages (q : MsgQuery) (s : St) : GetMsgsResult :=
  let matching := s.messages.filter (msgMatches q)
  let sorted := List.insertionSort tsDesc matching
  let afterSkip := sorted.drop q.skip
  let page := if q.limit = 0 then afterSkip else afterSkip.take q.limit
  { messages := page, count := page.length, total := matching.length }

/-- Is `c` a hexadecimal digit? -/
def isHexChar (c : Char) : Bool :=
  c.isDigit || ('a' ≤ c && c ≤ 'f') || ('A' ≤ c && c ≤ 'F')

/-- Value of a hexadecimal digit. -/
def hexVal (c : Char) : Nat :=
  if c.isDigit then c.toNat - '0'.toNat
  else if 'a' ≤ c && c ≤ 'f' then c.toNat - 'a'.toNat + 10
  else c.toNat - 'A'.toNat + 10

/-- Mongoose's cast of a route-parameter string to an ObjectId: a 24-digit
hexadecimal string casts (here to its numeric value); anything else makes
`findByIdAndUpdate` throw a CastError. -/
def parseObjectId (id : String) : Option Nat :=
  if id.data.length = 24 && id.data.all isHexChar then
    some (id.data.foldl (fun acc c => acc * 16 + hexVal c) 0)
  else none

/-- Result of `PUT /api/messages/:messageId/processed`. -/
inductive PutProcResult where
  | internalError
  | notFound
  | ok (data : Message)
deriving Repr, DecidableEq

/-- HTTP status code of a mark-processed response. -/
def PutProcResult.statusCode : PutProcResult → Nat
  | .internalError => 500
  | .notFound => 404
  | .ok _ => 200

/-- The update `\x7bprocessed: true, processed_at: new Date()\x7d` applied
to a document at time `t`. -/
def procStamp (t : Nat) (m : Message) : Message :=
  { m with processed := true, processed_at := some t }

/-- Apply `f` to the first document whose id is `oid` (what
`findByIdAndUpdate` does to the collection). -/
def updateById (oid : Nat) (f : Message → Message) : List Message → List Message
  | [] => []
  | m :: ms => if m.id = oid then f m :: ms else m :: updateById oid f ms

/-- Handler of `PUT /api/messages/:messageId/processed`
(`findByIdAndUpdate` with `\x7bnew: true\x7d`): a non-castable id throws,
caught as 500; a castable id matching no document gives 404; otherwise
the document is stamped processed and the updated document returned. -/
def putProcessed (messageId : String) (s : St) : PutProcResult × St :=
  match parseObjectId messageId with
  | none => (.internalError, s)
  | some oid =>
    match s.messages.find? (fun m => m.id = oid) with
    | none => (.notFound, s)
    | some m =>
      (.ok (procStamp s.now m),
       { s with messages := updateById oid (procStamp s.now) s.messages })

/-- A `POST /api/sim-cards` JSON body seen through `simCardValidation`'s
schema, plus the keys of undeclared fields present. -/
structure SimPayload where
  sim_id : Option String := none
  phone_number : Option String := none
  carrier : Option String := none
  is_active : Option Bool := none
  extra : List String := []
deriving Repr, DecidableEq

/-- The value returned by a successful `simCardValidation.validate`. -/
structure SimValue where
  sim_id : String
  phone_number : String
  carrier : Option String
  is_active : Option Bool
deriving Repr, DecidableEq

/-- `simCardValidation` (Joi): `sim_id`, `phone_number` required;
`carrier`, `is_active` optional; every `Joi.string()` rejects the empty
string (Joi default) and unknown keys are rejected. -/
def simCardValidation (p : SimPayload) : Except String SimValue :=
  match p.sim_id with
  | none => .error "\"sim_id\" is required"
  | some simId =>
    if simId = "" then .error "\"sim_id\" is not allowed to be empty" else
    match p.phone_number with
    | none => .error "\"phone_number\" is required"
    | some ph =>
      if ph = "" then .error "\"phone_number\" is not allowed to be empty" else
      if p.carrier = some "" then .error "\"carrier\" is not allowed to be empty" else
      match p.extra with
      | [] => .ok { sim_id := simId, phone_number := ph, carrier := p.carrier,
                    is_active := p.is_active }
      | k :: _ => .error ("\"" ++ k ++ "\" is not allowed")

/-- Result of `POST /api/sim-cards`. -/
inductive PostSimResult where
  | badRequest (error : String)
  | conflict (error : String)
  | created (sim_card : SimCard)
deriving Repr, DecidableEq

/-- HTTP status code of a SIM-registration response. -/
def PostSimResult.statusCode : PostSimResult → Nat
  | .badRequest _ => 400
  | .conflict _ => 409
  | .created _ => 201

/-- The document built by `new SimCard(value)` with the schema defaults
(`is_active: true`, `created_at`/`last_seen`: `Date.now`). -/
def mkSimCard (v : SimValue) (s : St) : SimCard :=
  { sim_id := v.sim_id
    phone_number := v.phone_number
    carrier := v.carrier
    is_active := v.is_active.getD true
    created_at := s.now
    last_seen := s.now }

/-- Handler of `POST /api/sim-cards`: validate, look the `sim_id` up
(`findOne`), answer 409 without writing when it exists, otherwise save
and answer 201 with the stored record. -/
def postSimCards (p : SimPayload) (s : St) : PostSimResult × St :=
  match simCardValidation p with
  | .error e => (.badRequest e, s)
  | .ok v =>
    match s.simCards.find? (fun c => c.sim_id = v.sim_id) with
    | some _ => (.conflict "SIM card already registered", s)
    | none =>
      (.created (mkSimCard v s), { s with simCards := s.simCards ++ [mkSimCard v s] })

/-- Handler of `GET /api/sim-cards`: all records, no filter. -/
def getSimCards (s : St) : List SimCard := s.simCards

/-- A `POST /api/simakohost/send-sms` JSON body: the three destructured
fields, each absent or a string. -/
structure SmsReq where
  sim_id : Option String := none
  «to» : Option String := none
  message : Option String := none
deriving Repr, DecidableEq

/-- The "queued" record the send-sms stub builds. -/
structure SmsRequestRecord where
  sim_id : String
  «to» : String
  message : String
  status : String
  created_at : Nat
deriving Repr, DecidableEq

/-- Result of `POST /api/simakohost/send-sms`. -/
inductive SendSmsResult where
  | badRequest (error : String)
  | accepted (request : SmsRequestRecord)
deriving Repr, DecidableEq

/-- HTTP status code of a send-sms response. -/
def SendSmsResult.statusCode : SendSmsResult → Nat
  | .badRequest _ => 400
  | .accepted _ => 202

/-- Handler of `POST /api/simakohost/send-sms`: the JS guard
`if (!sim_id || !to || !message)` answers 400 when a field is absent or
falsy (the empty string); otherwise it only builds and returns the queued
record — no store write, no external call. -/
def sendSms (r : SmsReq) (s : St) : SendSmsResult × St :=
  match r.sim_id, r.to, r.message with
  | some a, some b, some c =>
    if a = "" || b = "" || c = "" then
      (.badRequest "Missing required fields: sim_id, to, message", s)
    else
      (.accepted { sim_id := a, «to» := b, message := c, status := "queued",
                   created_at := s.now }, s)
  | _, _, _ => (.badRequest "Missing required fields: sim_id, to, message", s)

/-- Body of the `GET /health` 200 response. -/
structure HealthBody where
  status : String
  service : String
  mongodb : String
  timestamp : Nat
deriving Repr, DecidableEq

/-- Handler of `GET /health`: always 200, with the connectivity flag
computed from `mongoose.connection.readyState === 1`. -/
def health (s : St) : Nat × HealthBody :=
  (200,
   { status := "ok"
     service := "Simako Node.js Backend"
     mongodb := if s.connected then "connected" else "disconnected"
     timestamp := s.now })

/-- The `GET /health` response body as its list of JSON keys with
stringified values, to reason about which keys the body contains. -/
def healthJson (s : St) : List (String × String) :=
  [("status", "ok"),
   ("service", "Simako Node.js Backend"),
   ("mongodb", if s.connected then "connected" else "disconnected"),
   ("timestamp", toString s.now)]

/-- One externally triggered transition of the service: an API call,
the clock advancing, or the store connection flapping. -/
inductive Op where
  | tick (d : Nat)
  | setConnected (b : Bool)
  | postMsg (p : MsgPayload)
  | getMsgs (q : MsgQuery)
  | putProc (id : String)
  | getSims
  | postSim (p : SimPayload)
  | send (r : SmsReq)
  | healthCheck
deriving Repr

/-- State effect of each transition (read-only endpoints change nothing). -/
def stepOp : Op → St → St
  | .tick d, s => { s with now := s.now + d }
  | .setConnected b, s => { s with connected := b }
  | .postMsg p, s => (postMessages p s).2
  | .getMsgs _, s => s
  | .putProc id, s => (putProcessed id s).2
  | .getSims, s => s
  | .postSim p, s => (postSimCards p s).2
  | .send r, s => (sendSms r s).2
  | .healthCheck, s => s

/-- A fresh server: empty collections. -/
def initSt (t : Nat) (c : Bool) : St :=
  { now := t, messages := [], nextId := 0, simCards := [], connected := c }

/-- States reachable from a fresh server by any sequence of transitions. -/
inductive Reach : St → Prop where
  | init (t : Nat) (c : Bool) : Reach (initSt t c)
  | step (op : Op) {s : St} : Reach s → Reach (stepOp op s)

/-- The state invariant: every stored message was created no later than
now, has `processed_at` set iff `processed`, and has a fresh-bounded id;
message ids are pairwise distinct; SIM cards have pairwise distinct
`sim_id`. -/
def StInv (s : St) : Prop :=
  (∀ m ∈ s.messages,
      m.created_at ≤ s.now ∧ m.processed_at.isSome = m.processed ∧ m.id < s.nextId) ∧
  s.messages.Pairwise (fun a b => a.id ≠ b.id) ∧
  s.simCards.Pairwise (fun a b => a.sim_id ≠ b.sim_id)

/-- The spec's concrete ingestion payload:
`{"sim_id":"SIM001","type":"sms","from":"+1234567890","message":"hello"}`. -/
def exMsgPayload : MsgPayload :=
  { sim_id := some "SIM001", type := some "sms", «from» := some "+1234567890",
    message := some "hello" }

/-- The example ingestion payload with `sim_id` present but empty. -/
def exEmptyMsgPayload : MsgPayload :=
  { exMsgPayload with sim_id := some "" }

/-- The spec's concrete SIM registration payload:
`{"sim_id":"SIM001","phone_number":"+1234567890"}`. -/
def exSimPayload : SimPayload :=
  { sim_id := some "SIM001", phone_number := some "+1234567890" }

/-- A fresh connected server at time 5. -/
def ex0 : St := initSt 5 true

/-- The server after ingesting the example message. -/
def ex1 : St := stepOp (.postMsg exMsgPayload) ex0

/-- The server after registering the example SIM card. -/
def ex2 : St := stepOp (.postSim exSimPayload) ex0

/-- The record the example ingestion stores. -/
def exMsg : Message :=
  { id := 0, sim_id := "SIM001", type := "sms", «from» := "+1234567890",
    «to» := none, message := "hello", timestamp := 5, processed := false,
    processed_at := none, metadata := [], created_at := 5 }

/-- The 24-digit hexadecimal id string casting to ObjectId 0. -/
def oid0 : String := "000000000000000000000000"

/-- A successful `messageValidation` pins down the payload: every required
field was present, `type` is in the enum, no unknown key was present, and
the validated value copies the payload. -/
theorem messageValidation_ok {p : MsgPayload} {v : MsgValue}
    (h : messageValidation p = .ok v) :
    p.sim_id = some v.sim_id ∧ p.type = some v.type ∧
    (v.type = "sms" ∨ v.type = "call") ∧
    p.«from» = some v.«from» ∧ p.message = some v.message ∧ p.extra = [] ∧
    v.«to» = p.«to» ∧ v.timestamp = p.timestamp ∧ v.metadata = p.metadata ∧
    v.sim_id ≠ "" ∧ v.«from» ≠ "" ∧ v.message ≠ "" ∧ v.«to» ≠ some "" := by
  unfold messageValidation at h
  repeat' split at h
  all_goals cases h
  all_goals simp_all

/-- A successful `simCardValidation` pins down the payload likewise. -/
theorem simCardValidation_ok {p : SimPayload} {v : SimValue}
    (h : simCardValidation p = .ok v) :
    p.sim_id = some v.sim_id ∧ p.phone_number = some v.phone_number ∧
    p.extra = [] ∧ v.carrier = p.carrier ∧ v.is_active = p.is_active ∧
    v.sim_id ≠ "" ∧ v.phone_number ≠ "" ∧ v.carrier ≠ some "" := by
  unfold simCardValidation at h
  repeat' split at h
  all_goals cases h
  all_goals simp_all

/-- The send-sms stub never changes the state. -/
theorem sendSms_state (r : SmsReq) (s : St) : (sendSms r s).2 = s := by
  unfold sendSms
  repeat' split
  all_goals rfl

/-- `updateById` with an id-preserving update keeps the id sequence. -/
theorem updateById_map_id (oid : Nat) (f : Message → Message)
    (hf : ∀ m, (f m).id = m.id) :
    ∀ l : List Message, (updateById oid f l).map Message.id = l.map Message.id
  | [] => rfl
  | m :: ms => by
    unfold updateById
    split
    · simp [hf]
    · simp [updateById_map_id oid f hf ms]

/-- Every element of an updated collection is an old element or the image
of an old element. -/
theorem mem_updateById {oid : Nat} {f : Message → Message} {l : List Message}
    {x : Message} (hx : x ∈ updateById oid f l) : x ∈ l ∨ ∃ m ∈ l, x = f m := by
  induction l with
  | nil => simp [updateById] at hx
  | cons m ms ih =>
    rw [updateById] at hx
    by_cases h : m.id = oid
    · rw [if_pos h] at hx
      rcases List.mem_cons.mp hx with h1 | h1
      · exact Or.inr ⟨m, List.mem_cons_self m ms, h1⟩
      · exact Or.inl (List.mem_cons_of_mem _ h1)
    · rw [if_neg h] at hx
      rcases List.mem_cons.mp hx with h1 | h1
      · exact Or.inl (h1 ▸ List.mem_cons_self m ms)
      · rcases ih h1 with h2 | ⟨m', hm', he⟩
        · exact Or.inl (List.mem_cons_of_mem _ h2)
        · exact Or.inr ⟨m', List.mem_cons_of_mem _ hm', he⟩

/-- The document `find?` locates is updated in the written collection. -/
theorem updateById_of_find? {oid : Nat} {l : List Message} {m : Message}
    (h : l.find? (fun x => x.id = oid) = some m) (f : Message → Message) :
    f m ∈ updateById oid f l := by
  induction l with
  | nil => simp at h
  | cons a as ih =>
    by_cases ha : a.id = oid
    · rw [List.find?_cons_of_pos _ (by simpa using ha)] at h
      cases h
      rw [updateById, if_pos ha]
      exact List.mem_cons_self _ _
    · rw [List.find?_cons_of_neg _ (by simpa using ha)] at h
      rw [updateById, if_neg ha]
      exact List.mem_cons_of_mem _ (ih h)

/-- With pairwise-distinct ids, `find?` by a member's id returns exactly
that member. -/
theorem find?_eq_of_mem_unique {l : List Message}
    (hp : l.Pairwise (fun a b => a.id ≠ b.id)) {m : Message} (hm : m ∈ l) :
    l.find? (fun x => x.id = m.id) = some m := by
  induction l with
  | nil => cases hm
  | cons a as ih =>
    rcases List.mem_cons.mp hm with rfl | hm'
    · exact List.find?_cons_of_pos _ (by simp)
    · have ha : a.id ≠ m.id := (List.pairwise_cons.mp hp).1 m hm'
      rw [List.find?_cons_of_neg _ (by simpa using ha)]
      exact ih (List.pairwise_cons.mp hp).2 hm'

/-- With pairwise-distinct `sim_id` and a member carrying `sim_id = x`,
exactly one record carries `sim_id = x`. -/
theorem countP_sim_id_eq_one {l : List SimCard}
    (hp : l.Pairwise (fun a b => a.sim_id ≠ b.sim_id)) {x : String}
    (hc : ∃ c ∈ l, c.sim_id = x) :
    l.countP (fun c => c.sim_id = x) = 1 := by
  induction l with
  | nil => simp at hc
  | cons a as ih =>
    obtain ⟨hhead, htail⟩ := List.pairwise_cons.mp hp
    by_cases hax : a.sim_id = x
    · rw [List.countP_cons_of_pos _ _ (by simpa using hax)]
      have hz : as.countP (fun c => c.sim_id = x) = 0 := by
        rw [List.countP_eq_zero]
        intro c hc'
        simp only [decide_eq_true_eq]
        intro hcx
        exact (hhead c hc') (hax.trans hcx.symm)
      rw [hz]
    · rw [List.countP_cons_of_neg _ _ (by simpa using hax)]
      apply ih htail
      rcases hc with ⟨c, hcl, hcx⟩
      rcases List.mem_cons.mp hcl with rfl | h
      · exact absurd hcx hax
      · exact ⟨c, h, hcx⟩

/-- Every handler and every environment transition preserves the state
invariant. -/
theorem stepOp_inv (op : Op) {s : St} (ih : StInv s) : StInv (stepOp op s) := by
  obtain ⟨hf, hmp, hsp⟩ := ih
  cases op with
    | tick d =>
      refine ⟨?_, hmp, hsp⟩
      intro m hm
      obtain ⟨h1, h2, h3⟩ := hf m hm
      exact ⟨le_trans h1 (Nat.le_add_right _ _), h2, h3⟩
    | setConnected b => exact ⟨hf, hmp, hsp⟩
    | getMsgs q => exact ⟨hf, hmp, hsp⟩
    | getSims => exact ⟨hf, hmp, hsp⟩
    | healthCheck => exact ⟨hf, hmp, hsp⟩
    | send r =>
      simp only [stepOp, sendSms_state]
      exact ⟨hf, hmp, hsp⟩
    | postMsg p =>
      cases hv : messageValidation p with
      | error e =>
        have hstep : stepOp (.postMsg p) s = s := by
          simp [stepOp, postMessages, hv]
        rw [hstep]; exact ⟨hf, hmp, hsp⟩
      | ok v =>
        have hstep : stepOp (.postMsg p) s =
            { s with messages := s.messages ++ [mkMessage v s], nextId := s.nextId + 1 } := by
          simp [stepOp, postMessages, hv]
        rw [hstep]
        refine ⟨?_, ?_, hsp⟩
        · intro m hm
          rcases List.mem_append.mp hm with hm' | hm'
          · obtain ⟨h1, h2, h3⟩ := hf m hm'
            exact ⟨h1, h2, Nat.lt_succ_of_lt h3⟩
          · rcases List.mem_singleton.mp hm' with rfl
            exact ⟨le_refl _, rfl, Nat.lt_succ_self _⟩
        · rw [List.pairwise_append]
          refine ⟨hmp, List.pairwise_singleton _ _, ?_⟩
          intro a ha b hb
          rcases List.mem_singleton.mp hb with rfl
          have := (hf a ha).2.2
          simp only [mkMessage]
          omega
    | postSim p =>
      cases hv : simCardValidation p with
      | error e =>
        have hstep : stepOp (.postSim p) s = s := by
          simp [stepOp, postSimCards, hv]
        rw [hstep]; exact ⟨hf, hmp, hsp⟩
      | ok v =>
        cases hfind : s.simCards.find? (fun c => c.sim_id = v.sim_id) with
        | some c =>
          have hstep : stepOp (.postSim p) s = s := by
            simp [stepOp, postSimCards, hv, hfind]
          rw [hstep]; exact ⟨hf, hmp, hsp⟩
        | none =>
          have hstep : stepOp (.postSim p) s =
              { s with simCards := s.simCards ++ [mkSimCard v s] } := by
            simp [stepOp, postSimCards, hv, hfind]
          rw [hstep]
          refine ⟨hf, hmp, ?_⟩
          rw [List.pairwise_append]
          refine ⟨hsp, List.pairwise_singleton _ _, ?_⟩
          intro a ha b hb
          rcases List.mem_singleton.mp hb with rfl
          have := List.find?_eq_none.mp hfind a ha
          simp only [mkSimCard]
          simpa using this
    | putProc id =>
      cases hpid : parseObjectId id with
      | none =>
        have hstep : stepOp (.putProc id) s = s := by
          simp [stepOp, putProcessed, hpid]
        rw [hstep]; exact ⟨hf, hmp, hsp⟩
      | some oid =>
        cases hfind : s.messages.find? (fun m => m.id = oid) with
        | none =>
          have hstep : stepOp (.putProc id) s = s := by
            simp [stepOp, putProcessed, hpid, hfind]
          rw [hstep]; exact ⟨hf, hmp, hsp⟩
        | some m =>
          have hstep : stepOp (.putProc id) s =
              { s with messages := updateById oid (procStamp s.now) s.messages } := by
            simp [stepOp, putProcessed, hpid, hfind]
          rw [hstep]
          refine ⟨?_, ?_, hsp⟩
          · intro x hx
            rcases mem_updateById hx with hx' | ⟨m', hm', rfl⟩
            · exact hf x hx'
            · obtain ⟨h1, h2, h3⟩ := hf m' hm'
              exact ⟨h1, rfl, h3⟩
          · have hmap := updateById_map_id oid (procStamp s.now) (fun _ => rfl) s.messages
            have h1 : (s.messages.map Message.id).Pairwise (· ≠ ·) :=
              (List.pairwise_map).mpr hmp
            have h2 := (List.pairwise_map (l := updateById oid (procStamp s.now) s.messages)
              (f := Message.id) (R := (· ≠ ·)))
            rw [← h2]
            rw [hmap]
            exact h1

/-- The state invariant holds in every reachable state. -/
theorem reach_inv {s : St} (h : Reach s) : StInv s := by
  induction h with
  | init t c => exact ⟨by simp [initSt], by simp [initSt], by simp [initSt]⟩
  | step op hs ih => exact stepOp_inv op ih

/-- C1 counterexample: a payload containing `sim_id`, a `type` in the
enum, `from` and `message`, with no unknown key — but `sim_id` is the
empty string, which `Joi.string()` rejects by default — is answered 400,
where the claim as stated requires 201. -/
theorem C1_ingest_counterexample :
    exEmptyMsgPayload.sim_id ≠ none ∧ exEmptyMsgPayload.type = some "sms" ∧
    exEmptyMsgPayload.«from» ≠ none ∧ exEmptyMsgPayload.message ≠ none ∧
    exEmptyMsgPayload.extra = [] ∧
    (postMessages exEmptyMsgPayload (initSt 0 true)).1.statusCode = 400 ∧
    (postMessages exEmptyMsgPayload (initSt 0 true)).2 = initSt 0 true := by
  refine ⟨?_, rfl, ?_, ?_, rfl, rfl, rfl⟩ <;>
    simp [exEmptyMsgPayload, exMsgPayload]

/-- C1 (amended): for every `POST /api/messages` request: if the payload
carries a non-empty `sim_id`, a `type` in {sms, call}, a non-empty
`from` and a non-empty `message` (any further fields drawn only from the
optional `to` — non-empty when present — `timestamp`, `metadata`), the
handler answers 201 with `message_id` and the full stored record, in
which `processed` is false, `created_at` is the insertion time, and
`timestamp` is the payload's timestamp when supplied and otherwise the
insertion time; if a required field is missing or empty or `type` is
outside the enum, it answers 400 with a validation error and performs no
write. -/
theorem C1_ingest (p : MsgPayload) (s : St) :
    (∀ a t f b, p.sim_id = some a → p.type = some t → p.«from» = some f →
      p.message = some b → (t = "sms" ∨ t = "call") → p.extra = [] →
      a ≠ "" → f ≠ "" → b ≠ "" → p.«to» ≠ some "" →
      ∃ r : Message,
        postMessages p s =
          (.created r.id r,
           { s with messages := s.messages ++ [r], nextId := s.nextId + 1 }) ∧
        (postMessages p s).1.statusCode = 201 ∧
        r.processed = false ∧ r.processed_at = none ∧ r.created_at = s.now ∧
        r.timestamp = p.timestamp.getD s.now ∧
        r.sim_id = a ∧ r.type = t ∧ r.«from» = f ∧ r.message = b ∧
        r.«to» = p.«to» ∧ r.metadata = p.metadata.getD []) ∧
    ((p.sim_id = none ∨ p.sim_id = some "" ∨ p.type = none ∨
        p.«from» = none ∨ p.«from» = some "" ∨
        p.message = none ∨ p.message = some "" ∨
        (∀ t, p.type = some t → t ≠ "sms" ∧ t ≠ "call")) →
      ∃ e, postMessages p s = (.badRequest e, s) ∧
        (postMessages p s).1.statusCode = 400) := by
  constructor
  · intro a t f b ha ht hf0 hb htc hex hane hfne hbne htone
    have htne : t ≠ "" := by rcases htc with rfl | rfl <;> simp
    have hv : messageValidation p =
        .ok { sim_id := a, type := t, «from» := f, «to» := p.«to»,
              message := b, timestamp := p.timestamp, metadata := p.metadata } := by
      rcases htc with rfl | rfl <;>
        simp [messageValidation, ha, ht, hf0, hb, hex, hane, hfne, hbne, htone]
    refine ⟨mkMessage (MsgValue.mk a t f p.«to» b p.timestamp p.metadata) s,
      ?_, ?_, rfl, rfl, rfl, rfl, rfl, rfl, rfl, rfl, rfl, rfl⟩
    · simp [postMessages, hv]
    · simp [postMessages, hv, PostMsgResult.statusCode]
  · intro hbad
    cases hval : messageValidation p with
    | error e =>
      exact ⟨e, (by simp [postMessages, hval]),
        (by simp [postMessages, hval, PostMsgResult.statusCode])⟩
    | ok v =>
      exfalso
      obtain ⟨h1, h2, h3, h4, h5, h6, h7, h8, h9, h10, h11, h12, h13⟩ :=
        messageValidation_ok hval
      rcases hbad with h | h | h | h | h | h | h | h
      · rw [h] at h1; cases h1
      · rw [h] at h1; exact h10 (Option.some_injective _ h1.symm)
      · rw [h] at h2; cases h2
      · rw [h] at h4; cases h4
      · rw [h] at h4; exact h11 (Option.some_injective _ h4.symm)
      · rw [h] at h5; cases h5
      · rw [h] at h5; exact h12 (Option.some_injective _ h5.symm)
      · rcases h3 with h3 | h3
        · exact (h v.type h2).1 h3
        · exact (h v.type h2).2 h3

/-- C1 witness: the spec's concrete ingestion scenario answers 201 and
stores exactly one record. -/
theorem C1_ingest_witness :
    (postMessages exMsgPayload (initSt 0 true)).1.statusCode = 201 ∧
    (postMessages exMsgPayload (initSt 0 true)).2.messages.length = 1 := by
  obtain ⟨r, heq, hcode, _⟩ :=
    (C1_ingest exMsgPayload (initSt 0 true)).1 "SIM001" "sms" "+1234567890" "hello"
      rfl rfl rfl rfl (Or.inl rfl) rfl (by simp) (by simp) (by simp) (by simp [exMsgPayload])
  refine ⟨hcode, ?_⟩
  rw [heq]
  simp [initSt]

/-- C2: `PUT /api/messages/:id/processed` with a well-formed id matching
no record answers 404 and leaves the store unchanged; with an id whose
record exists, that record is stamped `processed = true` with a non-null
`processed_at` that is at least the record's `created_at`, and the
updated record is returned and stored. -/
theorem C2_mark_processed (s : St) (hs : Reach s) (id : String) (oid : Nat)
    (hid : parseObjectId id = some oid) :
    ((∀ m ∈ s.messages, m.id ≠ oid) →
        putProcessed id s = (.notFound, s) ∧
        (putProcessed id s).1.statusCode = 404) ∧
    (∀ m, m ∈ s.messages → m.id = oid →
        putProcessed id s =
          (.ok (procStamp s.now m),
           { s with messages := updateById oid (procStamp s.now) s.messages }) ∧
        (putProcessed id s).1.statusCode = 200 ∧
        (procStamp s.now m).processed = true ∧
        (procStamp s.now m).processed_at = some s.now ∧
        (procStamp s.now m).created_at = m.created_at ∧
        m.created_at ≤ s.now ∧
        procStamp s.now m ∈ (putProcessed id s).2.messages) := by
  constructor
  · intro h
    have hfind : s.messages.find? (fun m => m.id = oid) = none :=
      List.find?_eq_none.mpr (by intro x hx; simpa using h x hx)
    constructor
    · simp [putProcessed, hid, hfind]
    · simp [putProcessed, hid, hfind, PutProcResult.statusCode]
  · intro m hm hmid
    subst hmid
    have hfind : s.messages.find? (fun x => x.id = m.id) = some m :=
      find?_eq_of_mem_unique (reach_inv hs).2.1 hm
    have heq : putProcessed id s =
        (.ok (procStamp s.now m),
         { s with messages := updateById m.id (procStamp s.now) s.messages }) := by
      simp [putProcessed, hid, hfind]
    refine ⟨heq, ?_, rfl, rfl, rfl, ((reach_inv hs).1 m hm).1, ?_⟩
    · rw [heq]; rfl
    · rw [heq]
      exact updateById_of_find? hfind _

/-- C2 witness: marking the example stored message processed answers 200
with the record stamped at the current time, no earlier than its
creation. -/
theorem C2_mark_processed_witness :
    (putProcessed oid0 ex1).1.statusCode = 200 ∧
    (procStamp ex1.now exMsg).processed = true ∧
    (procStamp ex1.now exMsg).processed_at = some ex1.now ∧
    exMsg.created_at ≤ ex1.now := by
  have h := (C2_mark_processed ex1 (Reach.step (.postMsg exMsgPayload) (Reach.init 5 true))
      oid0 0 (by decide)).2 exMsg (by decide) (by decide)
  exact ⟨h.2.1, h.2.2.1, h.2.2.2.1, h.2.2.2.2.2.1⟩

/-- C3: the first valid registration of a `sim_id` answers 201 and stores
the record; a registration while a record with that `sim_id` exists
answers 409 with body error "SIM card already registered", writes
nothing, and the store holds exactly one record for that `sim_id`;
at most one record per `sim_id` survives every operation. -/
theorem C3_sim_register (s : St) (hs : Reach s) (p : SimPayload) (v : SimValue)
    (hv : simCardValidation p = .ok v) :
    ((∀ c ∈ s.simCards, c.sim_id ≠ v.sim_id) →
        postSimCards p s =
          (.created (mkSimCard v s),
           { s with simCards := s.simCards ++ [mkSimCard v s] }) ∧
        (postSimCards p s).1.statusCode = 201 ∧
        (mkSimCard v s).sim_id = v.sim_id) ∧
    ((∃ c ∈ s.simCards, c.sim_id = v.sim_id) →
        postSimCards p s = (.conflict "SIM card already registered", s) ∧
        (postSimCards p s).1.statusCode = 409 ∧
        (postSimCards p s).2.simCards.countP (fun c => c.sim_id = v.sim_id) = 1) ∧
    (∀ op, (stepOp op s).simCards.Pairwise (fun a b => a.sim_id ≠ b.sim_id)) := by
  refine ⟨?_, ?_, fun op => (stepOp_inv op (reach_inv hs)).2.2⟩
  · intro h
    have hfind : s.simCards.find? (fun c => c.sim_id = v.sim_id) = none :=
      List.find?_eq_none.mpr (by intro x hx; simpa using h x hx)
    refine ⟨?_, ?_, rfl⟩
    · simp [postSimCards, hv, hfind]
    · simp [postSimCards, hv, hfind, PostSimResult.statusCode]
  · intro hex
    cases hfind : s.simCards.find? (fun c => c.sim_id = v.sim_id) with
    | none =>
      exfalso
      obtain ⟨c, hc, hcx⟩ := hex
      exact absurd hcx (by simpa using List.find?_eq_none.mp hfind c hc)
    | some c =>
      have heq : postSimCards p s = (.conflict "SIM card already registered", s) := by
        simp [postSimCards, hv, hfind]
      refine ⟨heq, ?_, ?_⟩
      · rw [heq]; rfl
      · rw [heq]
        exact countP_sim_id_eq_one (reach_inv hs).2.2 hex

/-- C3 witness: the spec's concrete scenario — registering SIM001 twice:
first 201, then 409 with exactly one stored record for SIM001. -/
theorem C3_sim_register_witness :
    (postSimCards exSimPayload ex0).1.statusCode = 201 ∧
    (postSimCards exSimPayload ex2).1 = .conflict "SIM card already registered" ∧
    (postSimCards exSimPayload ex2).2.simCards.countP
      (fun c => c.sim_id = "SIM001") = 1 := by
  have hv : simCardValidation exSimPayload =
      .ok (SimValue.mk "SIM001" "+1234567890" none none) := rfl
  have h1 := (C3_sim_register ex0 (Reach.init 5 true) exSimPayload _ hv).1
    (by intro c hc; cases hc)
  have h2 := (C3_sim_register ex2 (Reach.step (.postSim exSimPayload) (Reach.init 5 true))
      exSimPayload _ hv).2.1 ⟨mkSimCard (SimValue.mk "SIM001" "+1234567890" none none) ex0,
        (by decide), rfl⟩
  refine ⟨h1.2.1, ?_, h2.2.2⟩
  rw [h2.1]

/-- C4: `GET /api/messages` — the returned page is ordered by timestamp
descending whatever the insertion order was, it is the `skip`/`limit`
slice of the sorted list of records matching the filter (a zero limit
meaning no limit, as MongoDB treats `.limit(0)`), `total` counts the
records matching the filter ignoring pagination, `count` counts the
records in the page; the two filter fields are conjoined and an absent
(or empty) filter field matches every record; `limit` defaults to 100 and
`skip` to 0. -/
theorem C4_list (s : St) (q : MsgQuery) :
    List.Sorted tsDesc (getMessages q s).messages ∧
    (getMessages q s).messages =
      (if q.limit = 0 then
        (List.insertionSort tsDesc (s.messages.filter (msgMatches q))).drop q.skip
      else
        ((List.insertionSort tsDesc
          (s.messages.filter (msgMatches q))).drop q.skip).take q.limit) ∧
    (getMessages q s).total = (s.messages.filter (msgMatches q)).length ∧
    (getMessages q s).count = (getMessages q s).messages.length ∧
    (∀ m ∈ (getMessages q s).messages, msgMatches q m = true) ∧
    (∀ m, msgMatches q m =
      (msgMatches { q with type := none } m && msgMatches { q with sim_id := none } m)) ∧
    (∀ m, msgMatches (MsgQuery.mk none none q.limit q.skip) m = true) ∧
    ({} : MsgQuery).limit = 100 ∧ ({} : MsgQuery).skip = 0 := by
  have hsorted : List.Sorted tsDesc
      (List.insertionSort tsDesc (s.messages.filter (msgMatches q))) :=
    List.sorted_insertionSort tsDesc _
  have hsub : (getMessages q s).messages.Sublist
      (List.insertionSort tsDesc (s.messages.filter (msgMatches q))) := by
    show (if q.limit = 0 then
        (List.insertionSort tsDesc (s.messages.filter (msgMatches q))).drop q.skip
      else
        ((List.insertionSort tsDesc
          (s.messages.filter (msgMatches q))).drop q.skip).take q.limit).Sublist
      (List.insertionSort tsDesc (s.messages.filter (msgMatches q)))
    by_cases h0 : q.limit = 0
    · rw [if_pos h0]
      exact List.drop_sublist _ _
    · rw [if_neg h0]
      exact (List.take_sublist _ _).trans (List.drop_sublist _ _)
  refine ⟨hsorted.sublist hsub, rfl, rfl, rfl, ?_, ?_, ?_, rfl, rfl⟩
  · intro m hm
    have hm2 : m ∈ List.insertionSort tsDesc (s.messages.filter (msgMatches q)) :=
      hsub.mem hm
    have hm3 : m ∈ s.messages.filter (msgMatches q) :=
      (List.perm_insertionSort tsDesc _).mem_iff.mp hm2
    exact (List.mem_filter.mp hm3).2
  · intro m
    cases hsi : q.sim_id <;> cases hty : q.type <;>
      simp [msgMatches, hsi, hty]
  · intro m
    rfl

/-- C4 witness: listing the example server with the default query finds
its single message, which matches the empty filter. -/
theorem C4_list_witness :
    (getMessages {} ex1).total = 1 ∧ (getMessages {} ex1).count = 1 ∧
    msgMatches {} exMsg = true := by
  have h := C4_list ex1 {}
  refine ⟨?_, ?_, h.2.2.2.2.1 exMsg (by decide)⟩
  · rw [h.2.2.1]; decide
  · rw [h.2.2.2.1]; decide

/-- C5: `processed_at` is set iff `processed` is true for every message
in every reachable state; ingestion stores `processed = false` with
`processed_at` unset, mark-processed sets both together, and no other
endpoint touches the messages collection at all. -/
theorem C5_processed_iff (s : St) (hs : Reach s) :
    (∀ m ∈ s.messages, m.processed_at.isSome = m.processed) ∧
    (∀ p v, messageValidation p = .ok v →
        (postMessages p s).2.messages = s.messages ++ [mkMessage v s] ∧
        (mkMessage v s).processed = false ∧ (mkMessage v s).processed_at = none) ∧
    (∀ id m, (putProcessed id s).1 = .ok m →
        m.processed = true ∧ m.processed_at = some s.now) ∧
    (∀ q, stepOp (.getMsgs q) s = s) ∧
    (stepOp .getSims s = s) ∧
    (stepOp .healthCheck s = s) ∧
    (∀ r, stepOp (.send r) s = s) ∧
    (∀ p, (stepOp (.postSim p) s).messages = s.messages) := by
  refine ⟨fun m hm => ((reach_inv hs).1 m hm).2.1, ?_, ?_, fun q => rfl, rfl, rfl,
    fun r => sendSms_state r s, ?_⟩
  · intro p v hv
    exact ⟨by simp [postMessages, hv], rfl, rfl⟩
  · intro id m h
    unfold putProcessed at h
    repeat' split at h
    · exact absurd h (by simp)
    · exact absurd h (by simp)
    · simp only [] at h
      cases h
      exact ⟨rfl, rfl⟩
  · intro p
    cases hv : simCardValidation p with
    | error e => simp [stepOp, postSimCards, hv]
    | ok v =>
      cases hfind : s.simCards.find? (fun c => c.sim_id = v.sim_id) <;>
        simp [stepOp, postSimCards, hv, hfind]

/-- C5 witness: the record stored by the example ingestion satisfies the
invariant in the reachable state it lives in. -/
theorem C5_processed_iff_witness :
    exMsg.processed_at.isSome = exMsg.processed :=
  (C5_processed_iff ex1 (Reach.step (.postMsg exMsgPayload) (Reach.init 5 true))).1
    exMsg (by decide)

/-- C6 counterexample: a send-sms request in which all three fields are
present but `sim_id` is the empty string — a JS-falsy value — is
answered 400, where the claim as stated requires 202. -/
theorem C6_send_sms_counterexample :
    (SmsReq.mk (some "") (some "+1234567890") (some "hello")).sim_id ≠ none ∧
    (SmsReq.mk (some "") (some "+1234567890") (some "hello")).«to» ≠ none ∧
    (SmsReq.mk (some "") (some "+1234567890") (some "hello")).message ≠ none ∧
    (sendSms (SmsReq.mk (some "") (some "+1234567890") (some "hello"))
      (initSt 0 true)).1.statusCode = 400 := by
  refine ⟨?_, ?_, ?_, rfl⟩ <;> simp

/-- C6 (amended): a `POST /api/simakohost/send-sms` request missing any
of `sim_id`, `to`, `message` is answered 400; no request ever changes the
durable state; a request in which all three fields are present and
non-empty (JS-truthy) is answered 202 with the queued record carrying the
three fields, status "queued" and `created_at` set to now. -/
theorem C6_send_sms (r : SmsReq) (s : St) :
    ((r.sim_id = none ∨ r.«to» = none ∨ r.message = none) →
        sendSms r s = (.badRequest "Missing required fields: sim_id, to, message", s) ∧
        (sendSms r s).1.statusCode = 400) ∧
    (sendSms r s).2 = s ∧
    (∀ a b c, r.sim_id = some a → r.«to» = some b → r.message = some c →
        a ≠ "" → b ≠ "" → c ≠ "" →
        sendSms r s =
          (.accepted (SmsRequestRecord.mk a b c "queued" s.now), s) ∧
        (sendSms r s).1.statusCode = 202) := by
  obtain ⟨ra, rb, rc⟩ := r
  refine ⟨?_, sendSms_state _ s, ?_⟩
  · intro h
    cases ra <;> cases rb <;> cases rc <;>
      first
      | exact ⟨rfl, rfl⟩
      | simp at h
  · intro a b c ha hb hc h1 h2 h3
    cases ha; cases hb; cases hc
    constructor
    · simp [sendSms, h1, h2, h3]
    · simp [sendSms, h1, h2, h3, SendSmsResult.statusCode]

/-- C6 witness: a complete, non-empty request is answered 202. -/
theorem C6_send_sms_witness :
    (sendSms (SmsReq.mk (some "SIM001") (some "+1234567890") (some "hello"))
      (initSt 0 true)).1.statusCode = 202 :=
  ((C6_send_sms (SmsReq.mk (some "SIM001") (some "+1234567890") (some "hello"))
      (initSt 0 true)).2.2 "SIM001" "+1234567890" "hello" rfl rfl rfl
      (by simp) (by simp) (by simp)).2

/-- C7: re-invoking mark-processed on a record already marked processed
(here: right after a first mark-processed of the same id, a time `d`
later) is not rejected: it answers 200 with the record still processed
and `processed_at` re-stamped to the later invocation time, the record
otherwise unchanged. -/
theorem C7_reprocess (s : St) (hs : Reach s) (id : String) (oid : Nat)
    (hid : parseObjectId id = some oid) (m : Message) (hm : m ∈ s.messages)
    (hmid : m.id = oid) (d : Nat) :
    (putProcessed id (stepOp (.tick d) (stepOp (.putProc id) s))).1 =
      .ok (procStamp (s.now + d) (procStamp s.now m)) ∧
    (putProcessed id (stepOp (.tick d) (stepOp (.putProc id) s))).1.statusCode = 200 ∧
    (procStamp (s.now + d) (procStamp s.now m)).processed = true ∧
    (procStamp (s.now + d) (procStamp s.now m)).processed_at = some (s.now + d) ∧
    procStamp (s.now + d) (procStamp s.now m) =
      { procStamp s.now m with processed_at := some (s.now + d) } := by
  subst hmid
  have hfind : s.messages.find? (fun x => x.id = m.id) = some m :=
    find?_eq_of_mem_unique (reach_inv hs).2.1 hm
  have hstep1 : stepOp (.putProc id) s =
      { s with messages := updateById m.id (procStamp s.now) s.messages } := by
    simp [stepOp, putProcessed, hid, hfind]
  have hs2 : Reach (stepOp (.tick d) (stepOp (.putProc id) s)) :=
    Reach.step (.tick d) (Reach.step (.putProc id) hs)
  have hmem2 : procStamp s.now m ∈
      (stepOp (.tick d) (stepOp (.putProc id) s)).messages := by
    rw [hstep1]
    exact updateById_of_find? hfind _
  have hfind2 : (stepOp (.tick d) (stepOp (.putProc id) s)).messages.find?
      (fun x => x.id = (procStamp s.now m).id) = some (procStamp s.now m) :=
    find?_eq_of_mem_unique (reach_inv hs2).2.1 hmem2
  have hfind2' : (stepOp (.tick d) (stepOp (.putProc id) s)).messages.find?
      (fun x => x.id = m.id) = some (procStamp s.now m) := hfind2
  have hnow2 : (stepOp (.tick d) (stepOp (.putProc id) s)).now = s.now + d := by
    rw [hstep1]
    rfl
  have hres : (putProcessed id (stepOp (.tick d) (stepOp (.putProc id) s))).1 =
      .ok (procStamp (s.now + d) (procStamp s.now m)) := by
    simp [putProcessed, hid, hfind2', hnow2]
  refine ⟨hres, ?_, rfl, rfl, rfl⟩
  rw [hres]
  rfl

/-- C7 witness: the example message processed twice, 3 ticks apart: the
second call answers 200 and re-stamps `processed_at`. -/
theorem C7_reprocess_witness :
    (putProcessed oid0 (stepOp (.tick 3) (stepOp (.putProc oid0) ex1))).1.statusCode = 200 ∧
    (procStamp (ex1.now + 3) (procStamp ex1.now exMsg)).processed = true ∧
    (procStamp (ex1.now + 3) (procStamp ex1.now exMsg)).processed_at = some (ex1.now + 3) := by
  have h := C7_reprocess ex1 (Reach.step (.postMsg exMsgPayload) (Reach.init 5 true))
    oid0 0 (by decide) exMsg (by decide) (by decide) 3
  exact ⟨h.2.1, h.2.2.1, h.2.2.2.1⟩

/-- C8 counterexample: the health body carries its connectivity flag
under the key "mongodb"; it has no key "store" as the claim states. -/
theorem C8_health_counterexample :
    (healthJson (initSt 0 true)).lookup "store" = none ∧
    (healthJson (initSt 0 true)).lookup "mongodb" = some "connected" ∧
    (health (initSt 0 true)).1 = 200 := by
  refine ⟨?_, ?_, rfl⟩ <;> rfl

/-- C8 (amended): `GET /health` always answers 200 with a body holding
`status`, the service name, a store-connectivity flag under the key
"mongodb" whose value is "connected" or "disconnected" according to the
store connection state, and a timestamp. -/
theorem C8_health (s : St) :
    (health s).1 = 200 ∧
    (health s).2.status = "ok" ∧
    (health s).2.service = "Simako Node.js Backend" ∧
    (s.connected = true → (health s).2.mongodb = "connected") ∧
    (s.connected = false → (health s).2.mongodb = "disconnected") ∧
    (health s).2.timestamp = s.now ∧
    (healthJson s).lookup "mongodb" = some (health s).2.mongodb ∧
    (healthJson s).lookup "status" = some "ok" ∧
    (healthJson s).lookup "timestamp" = some (toString s.now) := by
  cases hc : s.connected <;>
    simp [health, healthJson, hc, List.lookup]

/-- C8 witness: the flag follows the connection state on both concrete
states. -/
theorem C8_health_witness :
    (health (initSt 0 true)).2.mongodb = "connected" ∧
    (health (initSt 0 false)).2.mongodb = "disconnected" :=
  ⟨(C8_health (initSt 0 true)).2.2.2.1 rfl,
   (C8_health (initSt 0 false)).2.2.2.2.1 rfl⟩

/-- C9: a `POST /api/messages` or `POST /api/sim-cards` body carrying any
key the respective Joi schema does not declare (such as `processed`,
`processed_at`, `created_at` or `id`) is answered 400 and nothing is
written, so a client can never set the server-managed fields of a stored
record. -/
theorem C9_unknown_keys (s : St) :
    (∀ p : MsgPayload, p.extra ≠ [] →
        ∃ e, postMessages p s = (.badRequest e, s) ∧
          (postMessages p s).1.statusCode = 400) ∧
    (∀ p : SimPayload, p.extra ≠ [] →
        ∃ e, postSimCards p s = (.badRequest e, s) ∧
          (postSimCards p s).1.statusCode = 400) := by
  constructor
  · intro p hne
    cases hval : messageValidation p with
    | error e =>
      exact ⟨e, (by simp [postMessages, hval]),
        (by simp [postMessages, hval, PostMsgResult.statusCode])⟩
    | ok v => exact absurd (messageValidation_ok hval).2.2.2.2.2.1 hne
  · intro p hne
    cases hval : simCardValidation p with
    | error e =>
      exact ⟨e, (by simp [postSimCards, hval]),
        (by simp [postSimCards, hval, PostSimResult.statusCode])⟩
    | ok v => exact absurd (simCardValidation_ok hval).2.2.1 hne

/-- C9 witness: payloads that try to set `processed` or `created_at` are
answered 400. -/
theorem C9_unknown_keys_witness :
    (postMessages { exMsgPayload with extra := ["processed"] }
      (initSt 0 true)).1.statusCode = 400 ∧
    (postSimCards { exSimPayload with extra := ["created_at"] }
      (initSt 0 true)).1.statusCode = 400 := by
  obtain ⟨e1, h1, hc1⟩ := (C9_unknown_keys (initSt 0 true)).1
    { exMsgPayload with extra := ["processed"] } (by simp)
  obtain ⟨e2, h2, hc2⟩ := (C9_unknown_keys (initSt 0 true)).2
    { exSimPayload with extra := ["created_at"] } (by simp)
  exact ⟨hc1, hc2⟩

/-- C10: a `PUT /api/messages/:id/processed` whose id does not cast to an
ObjectId makes the lookup throw and the handler answer the generic 500,
not 404, with no state change; a castable id matching no record gets 404;
404 is only ever produced for a castable id. -/
theorem C10_malformed_id (s : St) (id : String) :
    (parseObjectId id = none →
        putProcessed id s = (.internalError, s) ∧
        (putProcessed id s).1.statusCode = 500) ∧
    (∀ oid, parseObjectId id = some oid → (∀ m ∈ s.messages, m.id ≠ oid) →
        putProcessed id s = (.notFound, s) ∧
        (putProcessed id s).1.statusCode = 404) ∧
    ((putProcessed id s).1 = .notFound → ∃ oid, parseObjectId id = some oid) := by
  refine ⟨?_, ?_, ?_⟩
  · intro h
    constructor
    · simp [putProcessed, h]
    · simp [putProcessed, h, PutProcResult.statusCode]
  · intro oid h hnone
    have hfind : s.messages.find? (fun m => m.id = oid) = none :=
      List.find?_eq_none.mpr (by intro x hx; simpa using hnone x hx)
    constructor
    · simp [putProcessed, h, hfind]
    · simp [putProcessed, h, hfind, PutProcResult.statusCode]
  · intro h
    cases hp : parseObjectId id with
    | none =>
      rw [show putProcessed id s = (.internalError, s) from by simp [putProcessed, hp]] at h
      cases h
    | some oid => exact ⟨oid, rfl⟩

/-- C10 witness: a malformed id gets 500; a well-formed unknown id gets
404. -/
theorem C10_malformed_id_witness :
    (putProcessed "not-a-valid-objectid" (initSt 0 true)).1.statusCode = 500 ∧
    (putProcessed "000000000000000000000001" (initSt 0 true)).1.statusCode = 404 := by
  refine ⟨((C10_malformed_id (initSt 0 true) "not-a-valid-objectid").1 (by decide)).2, ?_⟩
  exact ((C10_malformed_id (initSt 0 true) "000000000000000000000001").2.1 1
    (by decide) (by intro m hm; cases hm)).2

end Simako
